import Mathlib

/-!
Shallow embedding of PocketPlanner's rule engine: the notification
scheduling service, the streak evaluator, the smart-task suggestion
scorer, the daily energy log and micro-commitment creation.

Instants are modelled as integers (milliseconds); calendar days as
integers (day numbers), with `day * 86400000` the instant of that day's
midnight.  Date strings (`toDateString` / ISO day keys) compare equal
exactly when the underlying day numbers are equal, so day-granularity
string comparison is modelled by integer equality; the timezone is a
fixed offset (no DST), so differences of midnights are exact multiples
of 86400000.
-/

namespace PocketPlanner

/-- Notification type tags used by the scheduling service
(`'pre-start' | 'due-time' | 'halfway-reminder' | 'final-warning'`). -/
inductive NType where
  | preStart
  | dueTime
  | halfway
  | finalWarning
deriving DecidableEq, Repr

/-- `NotificationSettings` record (`preStartMinutes`, sound, vibration). -/
structure NotificationSettings where
  preStartMinutes : Int
  soundEnabled : Bool
  vibrationEnabled : Bool
deriving DecidableEq, Repr

/-- A persisted `ScheduledNotification` record. -/
structure SchedN where
  id : String
  taskId : String
  taskTitle : String
  type : NType
  scheduledTime : Int
  notificationId : String
deriving DecidableEq, Repr

/-- Result of a `scheduleTaskNotifications` call: the platform schedule
requests that were attempted (in order), and the content of the
`scheduled_notifications` storage key after the call returns. -/
structure SchedOutcome where
  requested : List NType
  store : List SchedN
deriving DecidableEq, Repr

/-- The branch of `scheduleTaskNotifications` handling
`estimatedDuration && estimatedDuration > 0 == false`: a single simple
reminder at `deadline - reminderMinutes` if still in the future, then the
final `saveScheduledNotifications`.  A scheduler rejection (`none`) throws
to the outer catch, so nothing is saved and storage keeps the value
written by `cancelTaskNotifications` (`store1`). -/
def schedSimple (sched : NType → Option String) (taskId taskTitle : String)
    (deadline reminderMinutes now : Int) (store1 : List SchedN)
    (req : List NType) (sn : List SchedN) : SchedOutcome :=
  let reminderTime := deadline - reminderMinutes * 60000
  if reminderTime > now then
    match sched NType.preStart with
    | none => { requested := req ++ [NType.preStart], store := store1 }
    | some h =>
      { requested := req ++ [NType.preStart],
        store := sn ++ [⟨taskId ++ "-pre-start", taskId, taskTitle,
          NType.preStart, reminderTime, h⟩] }
  else { requested := req, store := sn }

/-- The part of `scheduleTaskNotifications` from the
`if (estimatedDuration && estimatedDuration > 0)` branch onwards, ending
in the final `saveScheduledNotifications`.  The pre-start request is the
only one wrapped in its own try/catch; its `catch` does `return`, so on a
rejected pre-start request nothing further runs and nothing is saved
(storage keeps `store1`).  Rejections of the halfway request throw to the
outer catch, likewise skipping the save. -/
def schedDuration (sched : NType → Option String) (taskId taskTitle : String)
    (deadline reminderMinutes : Int) (estimatedDuration : Option Int)
    (now : Int) (store1 : List SchedN)
    (req : List NType) (sn : List SchedN) : SchedOutcome :=
  match estimatedDuration with
  | some dur =>
    if dur > 0 then
      let taskStartTime := deadline - dur * 60000
      let preStartTime := taskStartTime - reminderMinutes * 60000
      if preStartTime > now ∧ taskStartTime > now then
        match sched NType.preStart with
        | none => { requested := req ++ [NType.preStart], store := store1 }
        | some h =>
          let req := req ++ [NType.preStart]
          let sn := sn ++ [⟨taskId ++ "-pre-start", taskId, taskTitle,
            NType.preStart, preStartTime, h⟩]
          if dur > 30 then
            let halfwayTime := taskStartTime + dur * 30000
            if halfwayTime > now ∧ halfwayTime < deadline then
              match sched NType.halfway with
              | none => { requested := req ++ [NType.halfway], store := store1 }
              | some h₂ =>
                { requested := req ++ [NType.halfway],
                  store := sn ++ [⟨taskId ++ "-halfway", taskId, taskTitle,
                    NType.halfway, halfwayTime, h₂⟩] }
            else { requested := req, store := sn }
          else { requested := req, store := sn }
      else { requested := req, store := sn }
    else schedSimple sched taskId taskTitle deadline reminderMinutes now store1 req sn
  | none => schedSimple sched taskId taskTitle deadline reminderMinutes now store1 req sn

/-- `scheduleTaskNotifications` from the notification service.

* `gate` models `isExpoGo() || isWebPlatform() || !Device.isDevice` (early
  return, storage untouched);
* `sched ty` models `Notifications.scheduleNotificationAsync` for the
  request of type `ty`: `some handle` on success, `none` when the platform
  rejects (throws);
* `store0` is the persisted `scheduled_notifications` list; it is read
  into the local variable before `cancelTaskNotifications` filters the
  task's entries out of storage (`store1`).

The outcome records every schedule request attempted and the storage
content after the call. -/
def scheduleTaskNotifications (gate : Bool) (sched : NType → Option String)
    (taskId taskTitle : String) (deadline preStartMinutes : Int)
    (settings : NotificationSettings) (estimatedDuration : Option Int)
    (store0 : List SchedN) (now : Int) : SchedOutcome :=
  if gate then { requested := [], store := store0 }
  else
    let reminderMinutes :=
      if preStartMinutes = 0 then settings.preStartMinutes else preStartMinutes
    let sn := store0
    let store1 := store0.filter (fun n => n.taskId ≠ taskId)
    if deadline > now then
      match sched NType.dueTime with
      | none => { requested := [NType.dueTime], store := store1 }
      | some h₁ =>
        let sn := sn ++ [⟨taskId ++ "-due-time", taskId, taskTitle,
          NType.dueTime, deadline, h₁⟩]
        let req := [NType.dueTime]
        let finalWarningTime := deadline - 15 * 60000
        if finalWarningTime > now then
          match sched NType.finalWarning with
          | none => { requested := req ++ [NType.finalWarning], store := store1 }
          | some h₂ =>
            schedDuration sched taskId taskTitle deadline reminderMinutes
              estimatedDuration now store1 (req ++ [NType.finalWarning])
              (sn ++ [⟨taskId ++ "-final-warning", taskId, taskTitle,
                NType.finalWarning, finalWarningTime, h₂⟩])
        else
          schedDuration sched taskId taskTitle deadline reminderMinutes
            estimatedDuration now store1 req sn
    else { requested := [], store := sn }

/-- C1: for every deadline `d` and instant `n` with `d ≤ n` (deadline
already passed), `scheduleTaskNotifications` attempts no platform schedule
request of any type and leaves the persisted `ScheduledNotification` list
exactly as it was: no record for the task (or any task) is added. -/
theorem c1_past_deadline_no_reminders (gate : Bool) (sched : NType → Option String)
    (taskId taskTitle : String) (deadline preStartMinutes : Int)
    (settings : NotificationSettings) (estimatedDuration : Option Int)
    (store0 : List SchedN) (now : Int) (h : deadline ≤ now) :
    scheduleTaskNotifications gate sched taskId taskTitle deadline preStartMinutes
      settings estimatedDuration store0 now = { requested := [], store := store0 } := by
  unfold scheduleTaskNotifications
  by_cases hg : gate
  · simp [hg]
  · simp only [hg, if_false, Bool.false_eq_true]
    rw [if_neg (by omega)]

/-- Witness for C1 at a concrete input: deadline 100 ms, now 100 ms. -/
theorem c1_past_deadline_no_reminders_witness :
    (100 : Int) ≤ 100 ∧
    scheduleTaskNotifications false (fun _ => some "h") "t" "T" 100 15
      ⟨15, false, false⟩ (some 60) [] 100 = { requested := [], store := [] } :=
  ⟨le_refl _, c1_past_deadline_no_reminders false (fun _ => some "h") "t" "T" 100 15
    ⟨15, false, false⟩ (some 60) [] 100 (le_refl 100)⟩

/-- C2 counterexample: deadline 40 min from now, estimated duration 60 > 30
minutes, so `taskStart = now - 20 min` has already passed while
`halfway = now + 10 min` satisfies `now < halfway < deadline`; yet no
halfway-reminder is requested (the halfway block is nested inside the
pre-start block, which requires `preStart > now ∧ taskStart > now`). -/
theorem c2_halfway_counterexample :
    let out := scheduleTaskNotifications false (fun _ => some "h") "t" "T" 2400000 15
      ⟨15, false, false⟩ (some 60) [] 0
    let taskStart : Int := 2400000 - 60 * 60000
    let halfway : Int := taskStart + 60 * 30000
    (60 : Int) > 30 ∧ (2400000 : Int) > 0 ∧ (0 : Int) < halfway ∧ halfway < 2400000 ∧
      NType.halfway ∉ out.requested ∧
      out.store.all (fun n => n.type ≠ NType.halfway) := by decide

/-- C2 (amended): with the platform accepting every request, a deadline in
the future and `estimatedDuration > 30` minutes, the halfway-reminder at
`halfway = taskStart + estimatedDuration/2` is requested exactly when the
pre-start gate also passes, i.e. when
`preStart > now ∧ taskStart > now ∧ now < halfway ∧ halfway < deadline`. -/
theorem c2_halfway_condition (sched : NType → Option String)
    (taskId taskTitle : String) (deadline preStartMinutes : Int)
    (settings : NotificationSettings) (dur : Int)
    (store0 : List SchedN) (now : Int)
    (hsched : ∀ ty, (sched ty).isSome)
    (hdl : deadline > now) (hdur : dur > 30) :
    let reminderMinutes :=
      if preStartMinutes = 0 then settings.preStartMinutes else preStartMinutes
    let taskStartTime := deadline - dur * 60000
    let preStartTime := taskStartTime - reminderMinutes * 60000
    let halfwayTime := taskStartTime + dur * 30000
    (NType.halfway ∈ (scheduleTaskNotifications false sched taskId taskTitle deadline
        preStartMinutes settings (some dur) store0 now).requested ↔
      (preStartTime > now ∧ taskStartTime > now ∧ now < halfwayTime ∧
        halfwayTime < deadline)) := by
  obtain ⟨h₁, e₁⟩ := Option.isSome_iff_exists.mp (hsched NType.dueTime)
  obtain ⟨h₂, e₂⟩ := Option.isSome_iff_exists.mp (hsched NType.finalWarning)
  obtain ⟨h₃, e₃⟩ := Option.isSome_iff_exists.mp (hsched NType.preStart)
  obtain ⟨h₄, e₄⟩ := Option.isSome_iff_exists.mp (hsched NType.halfway)
  intro reminderMinutes taskStartTime preStartTime halfwayTime
  simp only [reminderMinutes, taskStartTime, preStartTime, halfwayTime]
  have hdur0 : dur > 0 := by omega
  unfold scheduleTaskNotifications schedDuration
  rw [if_neg (by simp), if_pos hdl, e₁]
  simp only [e₂, e₃, e₄, if_pos hdur0, if_pos hdur]
  split_ifs <;>
    simp_all [List.mem_append, List.mem_cons, List.mem_singleton]

/-- Witness for C2 (amended) at a concrete input: deadline 2 h away,
duration 60 min; every gate holds and the halfway-reminder is requested. -/
theorem c2_halfway_condition_witness :
    (∀ ty : NType, ((fun _ => some "h") ty : Option String).isSome) ∧
    (7200000 : Int) > 0 ∧ (60 : Int) > 30 ∧
    (let reminderMinutes : Int :=
      if (15 : Int) = 0 then (⟨15, false, false⟩ : NotificationSettings).preStartMinutes else 15
    let taskStartTime : Int := 7200000 - 60 * 60000
    let preStartTime := taskStartTime - reminderMinutes * 60000
    let halfwayTime := taskStartTime + 60 * 30000
    (NType.halfway ∈ (scheduleTaskNotifications false (fun _ => some "h") "t" "T" 7200000
        15 ⟨15, false, false⟩ (some 60) [] 0).requested ↔
      (preStartTime > 0 ∧ taskStartTime > 0 ∧ (0 : Int) < halfwayTime ∧
        halfwayTime < 7200000))) :=
  ⟨fun _ => rfl, by decide, by decide,
    c2_halfway_condition (fun _ => some "h") "t" "T" 7200000 15 ⟨15, false, false⟩ 60 [] 0
      (fun _ => rfl) (by decide) (by decide)⟩

/-- C3: evaluation at the failing input.  Deadline 2 h away, duration 60
min, one stale record for the task in storage; the platform rejects only
the pre-start request.  The code's `catch` around the pre-start request
does `return`, so the halfway-reminder (whose inclusion condition
`0 < 5400000 < 7200000` holds) is never attempted, and the final
`saveScheduledNotifications` is skipped: storage ends empty, recording
neither the successfully scheduled due-time nor the final-warning pair. -/
theorem c3_prestart_rejection_aborts :
    (scheduleTaskNotifications false
      (fun ty => if ty = NType.preStart then none else some "h") "t" "T" 7200000 15
      ⟨15, false, false⟩ (some 60) [⟨"x", "t", "T", NType.dueTime, 50, "old"⟩] 0).requested
        = [NType.dueTime, NType.finalWarning, NType.preStart] ∧
    (scheduleTaskNotifications false
      (fun ty => if ty = NType.preStart then none else some "h") "t" "T" 7200000 15
      ⟨15, false, false⟩ (some 60) [⟨"x", "t", "T", NType.dueTime, 50, "old"⟩] 0).store
        = [] := by decide

/-! ### Tasks, streaks -/

/-- Task priority (`'high' | 'medium' | 'low'`). -/
inductive Priority where
  | high
  | medium
  | low
deriving DecidableEq, Repr

/-- Focus-type tag
(`'deep-focus' | 'creative' | 'administrative' | 'low-energy'`). -/
inductive FocusType where
  | deepFocus
  | creative
  | administrative
  | lowEnergy
deriving DecidableEq, Repr

/-- A `Task` as persisted under the `tasks` key.  `date` is the task's
calendar-day key (day number); `deadline` the parsed deadline instant in
milliseconds (`none` models an absent/empty field).  Undefined boolean
fields (`isMicroTask`, `hasMicroTaskActive`) are modelled as `false`,
matching their falsiness in every read of the source. -/
structure STask where
  id : String
  title : String
  completed : Bool
  date : Int
  priority : Option Priority
  deadline : Option Int
  importance : Option Int
  urgency : Option Int
  focusType : Option FocusType
  linkedToTaskId : Option String
  isMicroTask : Bool
  hasMicroTaskActive : Bool
deriving DecidableEq, Repr

/-- The singleton `StreakData` record.  The date fields hold day numbers;
`none` models the initial empty string. -/
structure StreakData where
  currentStreak : Int
  longestStreak : Int
  lastCheckedDate : Option Int
  lastCompletionDate : Option Int
deriving DecidableEq, Repr

/-- Whether today counts as complete: all of today's tasks are completed
(and there is at least one), or — rescue condition — some incomplete task
of today has a completed task linked to it (`linkedToTaskId`). -/
def dayComplete (allTasks : List STask) (today : Int) : Bool :=
  let todayTasks := allTasks.filter (fun t => t.date == today)
  let allTasksCompleted :=
    decide (todayTasks.length > 0) && todayTasks.all (·.completed)
  if !allTasksCompleted then
    let incompleteTasks := todayTasks.filter (fun t => !t.completed)
    incompleteTasks.any (fun it =>
      decide ((allTasks.filter
        (fun t => t.linkedToTaskId == some it.id && t.completed)).length > 0))
  else
    allTasksCompleted

/-- Result of one streak evaluation: the in-memory state afterwards and
the record persisted by `saveStreakData`, when one was written. -/
structure StreakResult where
  state : StreakData
  written : Option StreakData
deriving DecidableEq, Repr

/-- The state-transition part of the `StreakTracker` component's
`checkAndUpdateStreak`, after `allTasksCompleted` has been computed. -/
def streakStep (allCompleted : Bool) (today : Int) (sd : StreakData) : StreakResult :=
  if allCompleted then
    if sd.lastCompletionDate ≠ some today then
      let yesterday := today - 1
      let cur :=
        if sd.lastCompletionDate = some yesterday ∨ sd.currentStreak = 0 then
          sd.currentStreak + 1
        else 1
      let w : StreakData :=
        { currentStreak := cur, longestStreak := max sd.longestStreak cur,
          lastCheckedDate := some today, lastCompletionDate := some today }
      { state := w, written := some w }
    else { state := sd, written := none }
  else
    if sd.lastCheckedDate ≠ some today then
      let yesterday := today - 1
      if sd.lastCompletionDate ≠ some yesterday ∧ sd.currentStreak > 0 then
        let lastCompletion := sd.lastCompletionDate.getD today
        let daysDifference := today - lastCompletion
        if daysDifference > 1 then
          let w := { sd with currentStreak := 0, lastCheckedDate := some today }
          { state := w, written := some w }
        else { state := sd, written := none }
      else { state := sd, written := none }
    else { state := sd, written := none }

/-- `checkAndUpdateStreak` of the `StreakTracker` component.  `tasksData`
is the parsed content of the `tasks` storage key (`none` when absent:
early return). -/
def checkAndUpdateStreak (tasksData : Option (List STask)) (today : Int)
    (sd : StreakData) : StreakResult :=
  match tasksData with
  | none => { state := sd, written := none }
  | some allTasks => streakStep (dayComplete allTasks today) today sd

/-- `checkAndUpdateStreak` of the streak screen: only the completion
branch exists there; returns the persisted record, if any. -/
def checkAndUpdateStreakScreen (tasksData : Option (List STask)) (today : Int)
    (sd : StreakData) : Option StreakData :=
  match tasksData with
  | none => none
  | some allTasks =>
    if dayComplete allTasks today ∧ sd.lastCompletionDate ≠ some today then
      let yesterday := today - 1
      let cur :=
        if sd.lastCompletionDate = some yesterday ∨ sd.currentStreak = 0 then
          sd.currentStreak + 1
        else 1
      some { currentStreak := cur, longestStreak := max sd.longestStreak cur,
             lastCheckedDate := some today, lastCompletionDate := some today }
    else none

/-- `streakStep` is idempotent in its state for a fixed day and fixed
completion verdict. -/
theorem streakStep_idem (b : Bool) (t : Int) (sd : StreakData) :
    (streakStep b t (streakStep b t sd).state).state = (streakStep b t sd).state := by
  by_cases hb : b
  · by_cases h1 : sd.lastCompletionDate = some t
    · simp [streakStep, hb, h1]
    · simp [streakStep, hb, h1]
  · by_cases h2 : sd.lastCheckedDate = some t
    · simp [streakStep, hb, h2]
    · by_cases h3 : sd.lastCompletionDate ≠ some (t - 1) ∧ sd.currentStreak > 0
      · by_cases h4 : t - sd.lastCompletionDate.getD t > 1
        · simp [streakStep, hb, h2, h3, h4]
        · simp [streakStep, hb, h2, h3, h4]
      · simp [streakStep, hb, h2, h3]

/-- C4: the Streak Evaluator is idempotent per day — with the stored
tasks unchanged, a second `checkAndUpdateStreak` run on the same day
leaves `StreakData` exactly as after the first run; in particular
`currentStreak` is never incremented twice for one day. -/
theorem c4_streak_idempotent (tasksData : Option (List STask)) (today : Int)
    (sd : StreakData) :
    (checkAndUpdateStreak tasksData today
        (checkAndUpdateStreak tasksData today sd).state).state =
      (checkAndUpdateStreak tasksData today sd).state := by
  cases tasksData with
  | none => rfl
  | some ts => exact streakStep_idem (dayComplete ts today) today sd

/-- C5: with today's tasks stored but not all complete (no micro-task
rescue) and `lastCheckedDate ≠ today`: a `lastCompletionDate` of 3 days
ago resets `currentStreak` to 0, while a `lastCompletionDate` of exactly
yesterday leaves the whole record unchanged. -/
theorem c5_gap_reset (ts : List STask) (today : Int) (sd : StreakData)
    (hdone : dayComplete ts today = false)
    (hchk : sd.lastCheckedDate ≠ some today)
    (hcur : 0 ≤ sd.currentStreak) :
    (sd.lastCompletionDate = some (today - 3) →
      (checkAndUpdateStreak (some ts) today sd).state.currentStreak = 0) ∧
    (sd.lastCompletionDate = some (today - 1) →
      (checkAndUpdateStreak (some ts) today sd).state = sd) := by
  constructor
  · intro hlc
    by_cases h : sd.currentStreak > 0
    · have hne : sd.lastCompletionDate ≠ some (today - 1) := by
        rw [hlc]
        intro hcontra
        have := Option.some.inj hcontra
        omega
      simp [checkAndUpdateStreak, streakStep, hdone, hchk, hne, h, hlc]
    · have h0 : sd.currentStreak = 0 := by omega
      simp [checkAndUpdateStreak, streakStep, hdone, hchk, h, h0]
  · intro hlc
    simp [checkAndUpdateStreak, streakStep, hdone, hchk, hlc]

/-- Witness for C5 at a concrete input: no tasks for today (day 10),
current streak 3. -/
theorem c5_gap_reset_witness :
    dayComplete [] 10 = false ∧
    (⟨3, 5, none, some 7⟩ : StreakData).lastCheckedDate ≠ some 10 ∧
    (0 : Int) ≤ 3 ∧
    ((⟨3, 5, none, some 7⟩ : StreakData).lastCompletionDate = some (10 - 3) →
      (checkAndUpdateStreak (some []) 10 ⟨3, 5, none, some 7⟩).state.currentStreak = 0) ∧
    ((⟨3, 5, none, some 7⟩ : StreakData).lastCompletionDate = some (10 - 1) →
      (checkAndUpdateStreak (some []) 10 ⟨3, 5, none, some 7⟩).state = ⟨3, 5, none, some 7⟩) := by
  refine ⟨by decide, by decide, by decide, ?_⟩
  exact c5_gap_reset [] 10 ⟨3, 5, none, some 7⟩ (by decide) (by decide) (by decide)

/-- Any record persisted by `streakStep` keeps `currentStreak` below
`longestStreak`, provided `longestStreak` started nonnegative. -/
theorem streakStep_written_le (b : Bool) (t : Int) (sd : StreakData)
    (h : 0 ≤ sd.longestStreak) (w : StreakData)
    (hw : (streakStep b t sd).written = some w) :
    w.currentStreak ≤ w.longestStreak := by
  by_cases hb : b
  · by_cases h1 : sd.lastCompletionDate = some t
    · simp [streakStep, hb, h1] at hw
    · by_cases h2 : sd.lastCompletionDate = some (t - 1) ∨ sd.currentStreak = 0
      · simp [streakStep, hb, h1, h2] at hw
        subst hw
        simp
      · simp [streakStep, hb, h1, h2] at hw
        subst hw
        simp
  · by_cases h2 : sd.lastCheckedDate = some t
    · simp [streakStep, hb, h2] at hw
    · by_cases h3 : sd.lastCompletionDate ≠ some (t - 1) ∧ sd.currentStreak > 0
      · by_cases h4 : t - sd.lastCompletionDate.getD t > 1
        · simp [streakStep, hb, h2, h3, h4] at hw
          subst hw
          simpa using h
        · simp [streakStep, hb, h2, h3, h4] at hw
      · simp [streakStep, hb, h2, h3] at hw

/-- C6: every `StreakData` record written by a streak update (both the
tracker component and the streak screen) satisfies
`currentStreak ≤ longestStreak`, assuming `longestStreak` was nonnegative
before the update. -/
theorem c6_written_streak_invariant (tasksData : Option (List STask)) (today : Int)
    (sd : StreakData) (h : 0 ≤ sd.longestStreak) :
    (∀ w, (checkAndUpdateStreak tasksData today sd).written = some w →
      w.currentStreak ≤ w.longestStreak) ∧
    (∀ w, checkAndUpdateStreakScreen tasksData today sd = some w →
      w.currentStreak ≤ w.longestStreak) := by
  constructor
  · intro w hw
    cases tasksData with
    | none => simp [checkAndUpdateStreak] at hw
    | some ts => exact streakStep_written_le (dayComplete ts today) today sd h w hw
  · intro w hw
    cases tasksData with
    | none => simp [checkAndUpdateStreakScreen] at hw
    | some ts =>
      by_cases h1 : dayComplete ts today = true ∧ sd.lastCompletionDate ≠ some today
      · by_cases h2 : sd.lastCompletionDate = some (today - 1) ∨ sd.currentStreak = 0
        · simp [checkAndUpdateStreakScreen, h1, h2] at hw
          subst hw
          simp
        · simp [checkAndUpdateStreakScreen, h1, h2] at hw
          subst hw
          simp
      · simp [checkAndUpdateStreakScreen, h1] at hw

/-- Witness for C6 at a concrete input: one completed task today (day
10), streak record `{current 2, longest 2, lastCompletion day 9}`. -/
theorem c6_written_streak_invariant_witness :
    (0 : Int) ≤ (⟨2, 2, some 9, some 9⟩ : StreakData).longestStreak ∧
    ((∀ w, (checkAndUpdateStreak
        (some [⟨"a", "T", true, 10, none, none, none, none, none, none, false, false⟩])
        10 ⟨2, 2, some 9, some 9⟩).written = some w →
      w.currentStreak ≤ w.longestStreak) ∧
    (∀ w, checkAndUpdateStreakScreen
        (some [⟨"a", "T", true, 10, none, none, none, none, none, none, false, false⟩])
        10 ⟨2, 2, some 9, some 9⟩ = some w →
      w.currentStreak ≤ w.longestStreak)) :=
  ⟨by decide,
    c6_written_streak_invariant
      (some [⟨"a", "T", true, 10, none, none, none, none, none, none, false, false⟩])
      10 ⟨2, 2, some 9, some 9⟩ (by decide)⟩

/-! ### Daily energy log -/

/-- An entry of the `dailyEnergyLog` list: `date` is the ISO day key
(day number), `energy` the level logged. -/
structure EnergyLog where
  date : Int
  energy : Int
deriving DecidableEq, Repr

/-- The ISO day key of an instant in milliseconds
(`toISOString().split('T')[0]`): floor division by one day.  Parsing a
day key back (`new Date(log.date)`) yields `date * 86400000`. -/
def dayOf (instant : Int) : Int := instant / 86400000

/-- `logEnergyLevel` from `DailyEnergyTracker`: drop any entry for today,
append today's entry, then keep only entries whose parsed date instant is
`≥ now - 30 days`. -/
def logEnergyLevel (now energy : Int) (logs0 : List EnergyLog) : List EnergyLog :=
  let today := dayOf now
  let logs1 := logs0.filter (fun l => l.date ≠ today)
  let logs2 := logs1 ++ [⟨today, energy⟩]
  let thirtyDaysAgo := now - 30 * 86400000
  logs2.filter (fun l => l.date * 86400000 ≥ thirtyDaysAgo)

/-- Unfolding equation for `logEnergyLevel`. -/
theorem logEnergyLevel_eq (now energy : Int) (logs0 : List EnergyLog) :
    logEnergyLevel now energy logs0 =
      (logs0.filter (fun l => l.date ≠ dayOf now) ++
          ([⟨dayOf now, energy⟩] : List EnergyLog)).filter
        (fun l => l.date * 86400000 ≥ now - 30 * 86400000) := rfl

/-- Mapping `date` over the retention filter commutes with filtering the
mapped date list. -/
theorem map_date_filter (now : Int) (l : List EnergyLog) :
    (l.filter (fun e => e.date * 86400000 ≥ now - 30 * 86400000)).map EnergyLog.date =
      (l.map EnergyLog.date).filter (fun d => d * 86400000 ≥ now - 30 * 86400000) := by
  induction l with
  | nil => rfl
  | cons e t ih =>
    simp only [List.filter_cons, List.map_cons, decide_eq_true_eq]
    by_cases hp : e.date * 86400000 ≥ now - 30 * 86400000
    · rw [if_pos hp, if_pos hp, List.map_cons, ih]
    · rw [if_neg hp, if_neg hp, ih]

/-- C8 counterexample: writing the 31st distinct consecutive day exactly
at midnight (now a multiple of 86400000) keeps 31 dates — the entry from
30 days ago still satisfies `date * 86400000 ≥ now - 30 days`. -/
theorem c8_retention_counterexample :
    let logs0 := (List.range 30).map (fun i : ℕ => (⟨(i : Int), 3⟩ : EnergyLog))
    let result := logEnergyLevel (30 * 86400000) 4 logs0
    logs0.length = 30 ∧ (logs0.map EnergyLog.date).Nodup ∧
      result.length = 31 ∧ (⟨0, 3⟩ : EnergyLog) ∈ result := by decide

/-- C8 (amended): after a `logEnergyLevel` write strictly after midnight,
(1) dates stay pairwise distinct, (2) today's entry is exactly the one
just logged — logging again for an already-logged date replaces it —
(3) no surviving entry is older than 30 days, and (4) if the log held the
30 consecutive days before today, exactly the 30 most recent dates
(today−29 … today) remain.  At exactly midnight the 30-day-old entry is
also retained (see the counterexample). -/
theorem c8_energy_log_invariants (now energy : Int) (logs0 : List EnergyLog)
    (hnodup : (logs0.map EnergyLog.date).Nodup)
    (hmid : dayOf now * 86400000 < now) :
    ((logEnergyLevel now energy logs0).map EnergyLog.date).Nodup ∧
    ((⟨dayOf now, energy⟩ : EnergyLog) ∈ logEnergyLevel now energy logs0 ∧
      ∀ l ∈ logEnergyLevel now energy logs0, l.date = dayOf now →
        l = ⟨dayOf now, energy⟩) ∧
    (∀ l ∈ logEnergyLevel now energy logs0, dayOf now - 30 ≤ l.date) ∧
    (logs0.map EnergyLog.date = (List.range 30).map (fun i : ℕ => dayOf now - 30 + (i : Int)) →
      (logEnergyLevel now energy logs0).map EnergyLog.date =
        (List.range 30).map (fun i : ℕ => dayOf now - 29 + (i : Int))) := by
  have hub : now < (dayOf now + 1) * 86400000 := by unfold dayOf; omega
  have hlb : dayOf now * 86400000 ≤ now := by unfold dayOf; omega
  refine ⟨?_, ⟨?_, ?_⟩, ?_, ?_⟩
  · -- (1) distinct dates are preserved
    have hsubA : (logs0.filter (fun l => l.date ≠ dayOf now)).Sublist logs0 :=
      List.filter_sublist _
    have hA : ((logs0.filter (fun l => l.date ≠ dayOf now)).map EnergyLog.date).Nodup :=
      hnodup.sublist (hsubA.map _)
    have hnm : dayOf now ∉
        (logs0.filter (fun l => l.date ≠ dayOf now)).map EnergyLog.date := by
      simp only [List.mem_map, List.mem_filter, not_exists]
      rintro l ⟨⟨-, hl⟩, hd⟩
      simp [hd] at hl
    have h2 : ((logs0.filter (fun l => l.date ≠ dayOf now) ++
        ([⟨dayOf now, energy⟩] : List EnergyLog)).map EnergyLog.date).Nodup := by
      rw [List.map_append]
      exact List.nodup_append.mpr ⟨hA, List.nodup_singleton _, by
        intro a ha hb
        simp only [List.map_cons, List.map_nil, List.mem_singleton] at hb
        exact hnm (hb ▸ ha)⟩
    rw [logEnergyLevel_eq]
    exact h2.sublist ((List.filter_sublist _).map _)
  · -- (2a) today's entry survives the retention filter
    rw [logEnergyLevel_eq]
    refine List.mem_filter.mpr ⟨List.mem_append_right _ (List.mem_singleton_self _), ?_⟩
    simp only [decide_eq_true_eq]
    omega
  · -- (2b) and it is the only entry dated today
    intro l hl hd
    rw [logEnergyLevel_eq] at hl
    rcases List.mem_append.mp (List.mem_filter.mp hl).1 with h | h
    · have := (List.mem_filter.mp h).2
      simp [hd] at this
    · simpa using h
  · -- (3) nothing older than 30 days survives
    intro l hl
    rw [logEnergyLevel_eq] at hl
    have hkeep := (List.mem_filter.mp hl).2
    simp only [decide_eq_true_eq] at hkeep
    unfold dayOf at hub hlb ⊢
    omega
  · -- (4) 30 consecutive previous days plus today leave today−29 … today
    intro hconsec
    have hAeq : logs0.filter (fun l => l.date ≠ dayOf now) = logs0 := by
      apply List.filter_eq_self.mpr
      intro l hl
      have hd : l.date ∈ logs0.map EnergyLog.date := List.mem_map_of_mem _ hl
      rw [hconsec] at hd
      simp only [List.mem_map, List.mem_range] at hd
      obtain ⟨i, hi, hdi⟩ := hd
      simp only [decide_eq_true_eq]
      omega
    rw [logEnergyLevel_eq, hAeq]
    refine (map_date_filter now (logs0 ++ [⟨dayOf now, energy⟩])).trans ?_
    rw [List.map_append, hconsec]
    simp only [List.map_cons, List.map_nil]
    rw [List.filter_append]
    have htail : ∀ (n : ℕ) (g : ℕ → Int), (∀ i, i < n →
        g i * 86400000 ≥ now - 30 * 86400000) →
        ((List.range n).map g).filter
          (fun d : Int => d * 86400000 ≥ now - 30 * 86400000) =
          (List.range n).map g := by
      intro n g hg
      apply List.filter_eq_self.mpr
      intro d hd
      simp only [List.mem_map, List.mem_range] at hd
      obtain ⟨i, hi, hdi⟩ := hd
      simp only [decide_eq_true_eq]
      exact hdi ▸ hg i hi
    conv_lhs => rw [List.range_succ_eq_map, List.map_cons, List.map_map]
    rw [List.filter_cons_of_neg (by simp only [decide_eq_true_eq]; push_cast; omega)]
    rw [htail 29 ((fun i : ℕ => dayOf now - 30 + (i : Int)) ∘ Nat.succ)
      (by intro i hi; simp only [Function.comp]; push_cast; omega)]
    rw [List.filter_cons_of_pos (by simp only [decide_eq_true_eq]; omega),
      List.filter_nil]
    conv_rhs => rw [show (30 : ℕ) = 29 + 1 from rfl, List.range_succ, List.map_append]
    congr 1
    · apply List.map_congr_left
      intro i hi
      simp only [Function.comp]
      push_cast
      omega
    · simp only [List.map_cons, List.map_nil]
      congr 1
      push_cast
      omega

/-- Witness for C8 (amended) at a concrete input: a write one millisecond
after midnight of day 30, over the 30 consecutive days 0…29. -/
theorem c8_energy_log_invariants_witness :
    let logs0 := (List.range 30).map (fun i : ℕ => (⟨(i : Int), 3⟩ : EnergyLog))
    let now : Int := 30 * 86400000 + 1
    ((logs0.map EnergyLog.date).Nodup ∧ dayOf now * 86400000 < now) ∧
    (((logEnergyLevel now 4 logs0).map EnergyLog.date).Nodup ∧
    ((⟨dayOf now, 4⟩ : EnergyLog) ∈ logEnergyLevel now 4 logs0 ∧
      ∀ l ∈ logEnergyLevel now 4 logs0, l.date = dayOf now → l = ⟨dayOf now, 4⟩) ∧
    (∀ l ∈ logEnergyLevel now 4 logs0, dayOf now - 30 ≤ l.date) ∧
    (logs0.map EnergyLog.date = (List.range 30).map (fun i : ℕ => dayOf now - 30 + (i : Int)) →
      (logEnergyLevel now 4 logs0).map EnergyLog.date =
        (List.range 30).map (fun i : ℕ => dayOf now - 29 + (i : Int)))) :=
  ⟨⟨by decide, by decide⟩,
    c8_energy_log_invariants (30 * 86400000 + 1) 4
      ((List.range 30).map (fun i : ℕ => (⟨(i : Int), 3⟩ : EnergyLog)))
      (by decide) (by decide)⟩

/-! ### Micro-commitment creation -/

/-- JavaScript `String.prototype.trim`, modelled on the character list:
strip leading and trailing whitespace. -/
def jsTrim (s : String) : String :=
  ⟨((s.data.dropWhile Char.isWhitespace).reverse.dropWhile Char.isWhitespace).reverse⟩

/-- `createMicroTask` from `MicroCommitmentModal`: given the parent task,
the free-text step title, the freshly generated id and today's day key,
returns the final content written to the `tasks` key (`none` when the
empty-title guard aborts).  The micro-task takes
`originalTask.priority || 'medium'`, copies deadline / importance /
urgency / focusType, links to the parent and is dated today; the list is
then re-mapped to set `hasMicroTaskActive` on every task whose id equals
the parent's. -/
def createMicroTask (parent : STask) (title freshId : String) (today : Int)
    (stored : List STask) : Option (List STask) :=
  if jsTrim title = "" then none
  else
    let microTask : STask :=
      { id := freshId, title := jsTrim title, completed := false, date := today,
        priority := some (parent.priority.getD Priority.medium),
        deadline := parent.deadline, importance := parent.importance,
        urgency := parent.urgency, focusType := parent.focusType,
        linkedToTaskId := some parent.id, isMicroTask := true,
        hasMicroTaskActive := false }
    let allTasks := stored ++ [microTask]
    let updatedTasks := allTasks.map (fun t =>
      if t.id = parent.id then { t with hasMicroTaskActive := true } else t)
    some updatedTasks

/-- C9 counterexample: a parent task with no priority field yields a
micro-task with priority `medium`, not the parent's (absent) priority —
`originalTask.priority || 'medium'` defaults instead of inheriting. -/
theorem c9_priority_counterexample :
    let parent : STask :=
      ⟨"p1", "Parent", false, 10, none, none, none, none, none, none, false, false⟩
    createMicroTask parent "step" "m1" 10 [parent] =
      some [⟨"p1", "Parent", false, 10, none, none, none, none, none, none, false, true⟩,
        ⟨"m1", "step", false, 10, some Priority.medium, none, none, none, none,
          some "p1", true, false⟩] ∧
    parent.completed = false ∧ parent.priority = none ∧
    (some Priority.medium : Option Priority) ≠ parent.priority := by decide

/-- C9 (amended): given an incomplete parent task stored under distinct
ids, a step title that is nonempty after trimming and a fresh id, exactly
one new task is appended at the end with `isMicroTask = true`,
`linkedToTaskId = parent.id`, `completed = false`, dated today, copying
the parent's deadline, importance, urgency and focus-type, and carrying
the parent's priority when the parent has one (defaulting to `medium`
when the parent has none); the parent is marked
`hasMicroTaskActive = true`; every other task is unchanged. -/
theorem c9_micro_commitment (parent : STask) (title freshId : String) (today : Int)
    (stored : List STask)
    (hinc : parent.completed = false)
    (htitle : jsTrim title ≠ "")
    (hmem : parent ∈ stored)
    (hfresh : freshId ∉ stored.map STask.id) :
    let micro : STask :=
      { id := freshId, title := jsTrim title, completed := false, date := today,
        priority := some (parent.priority.getD Priority.medium),
        deadline := parent.deadline, importance := parent.importance,
        urgency := parent.urgency, focusType := parent.focusType,
        linkedToTaskId := some parent.id, isMicroTask := true,
        hasMicroTaskActive := false }
    let mark : STask → STask := fun t =>
      if t.id = parent.id then { t with hasMicroTaskActive := true } else t
    createMicroTask parent title freshId today stored =
      some (stored.map mark ++ [micro]) ∧
    micro.isMicroTask = true ∧ micro.linkedToTaskId = some parent.id ∧
    micro.completed = false ∧ micro.date = today ∧
    micro.deadline = parent.deadline ∧ micro.importance = parent.importance ∧
    micro.urgency = parent.urgency ∧ micro.focusType = parent.focusType ∧
    (∀ p, parent.priority = some p → micro.priority = some p) ∧
    (parent.priority = none → micro.priority = some Priority.medium) ∧
    { parent with hasMicroTaskActive := true } ∈ stored.map mark ∧
    (∀ t ∈ stored, t.id ≠ parent.id → mark t = t) := by
  intro micro mark
  have hpid : freshId ≠ parent.id := by
    intro h
    exact hfresh (h ▸ List.mem_map_of_mem STask.id hmem)
  refine ⟨?_, rfl, rfl, rfl, rfl, rfl, rfl, rfl, rfl, ?_, ?_, ?_, ?_⟩
  · unfold createMicroTask
    rw [if_neg htitle]
    simp only [micro, mark, List.map_append, List.map_cons, List.map_nil,
      Option.some.injEq]
    rw [if_neg hpid]
  · intro p hp
    simp [micro, hp]
  · intro hp
    simp [micro, hp]
  · have := List.mem_map_of_mem mark hmem
    simpa [mark] using this
  · intro t ht hne
    simp [mark, hne]

/-- Witness for C9 (amended) at a concrete input: a high-priority parent
and one unrelated task. -/
theorem c9_micro_commitment_witness :
    let parent : STask :=
      ⟨"p1", "Parent", false, 10, some Priority.high, some 99, some 4, some 5,
        some FocusType.creative, none, false, false⟩
    let other : STask :=
      ⟨"q2", "Other", true, 10, none, none, none, none, none, none, false, false⟩
    (parent.completed = false ∧ jsTrim " step " ≠ "" ∧ parent ∈ [other, parent] ∧
      "m1" ∉ ([other, parent].map STask.id)) ∧
    (let micro : STask :=
      { id := "m1", title := jsTrim " step ", completed := false, date := 10,
        priority := some (parent.priority.getD Priority.medium),
        deadline := parent.deadline, importance := parent.importance,
        urgency := parent.urgency, focusType := parent.focusType,
        linkedToTaskId := some parent.id, isMicroTask := true,
        hasMicroTaskActive := false }
    let mark : STask → STask := fun t =>
      if t.id = parent.id then { t with hasMicroTaskActive := true } else t
    createMicroTask parent " step " "m1" 10 [other, parent] =
      some ([other, parent].map mark ++ [micro]) ∧
    micro.isMicroTask = true ∧ micro.linkedToTaskId = some parent.id ∧
    micro.completed = false ∧ micro.date = 10 ∧
    micro.deadline = parent.deadline ∧ micro.importance = parent.importance ∧
    micro.urgency = parent.urgency ∧ micro.focusType = parent.focusType ∧
    (∀ p, parent.priority = some p → micro.priority = some p) ∧
    (parent.priority = none → micro.priority = some Priority.medium) ∧
    { parent with hasMicroTaskActive := true } ∈ [other, parent].map mark ∧
    (∀ t ∈ [other, parent], t.id ≠ parent.id → mark t = t)) :=
  ⟨⟨rfl, by decide, by decide, by decide⟩,
    c9_micro_commitment
      ⟨"p1", "Parent", false, 10, some Priority.high, some 99, some 4, some 5,
        some FocusType.creative, none, false, false⟩
      " step " "m1" 10
      [⟨"q2", "Other", true, 10, none, none, none, none, none, none, false, false⟩,
       ⟨"p1", "Parent", false, 10, some Priority.high, some 99, some 4, some 5,
        some FocusType.creative, none, false, false⟩]
      rfl (by decide) (by decide) (by decide)⟩

/-! ### Smart task suggestions -/

/-- Time-of-day bucket (`'morning' | 'afternoon' | 'evening'`). -/
inductive TimeContext where
  | morning
  | afternoon
  | evening
deriving DecidableEq, Repr

/-- `Math.ceil` of the exact rational `a / b` for a positive divisor `b`,
as used for `daysUntilDeadline`. -/
def ceilDiv (a b : Int) : Int := (a + b - 1) / b

/-- Base score from priority: high +3, medium +2, anything else
(including an absent priority) +1. -/
def priorityScore (p : Option Priority) : Int :=
  match p with
  | some Priority.high => 3
  | some Priority.medium => 2
  | _ => 1

/-- Focus-type × energy-level match score (the `switch` on
`task.focusType`; no focus type contributes nothing). -/
def focusEnergyScore (ft : Option FocusType) (energyLevel : Int) : Int :=
  match ft with
  | none => 0
  | some FocusType.deepFocus =>
    if energyLevel ≥ 4 then 3 else if energyLevel = 3 then 1 else -1
  | some FocusType.creative => if energyLevel ≥ 3 then 2 else -1
  | some FocusType.administrative => if energyLevel ≥ 2 then 1 else 0
  | some FocusType.lowEnergy =>
    if energyLevel ≤ 2 then 3 else if energyLevel = 3 then 1 else 0

/-- Time-of-day bonus. -/
def timeBonus (ft : Option FocusType) (tc : TimeContext) : Int :=
  match tc with
  | TimeContext.morning =>
    (if ft = some FocusType.deepFocus then 2 else 0) +
      (if ft = some FocusType.creative then 1 else 0)
  | TimeContext.afternoon => if ft = some FocusType.administrative then 1 else 0
  | TimeContext.evening =>
    (if ft = some FocusType.lowEnergy then 2 else 0) +
      (if ft = some FocusType.administrative then 1 else 0)

/-- Deadline urgency: `daysUntilDeadline = ceil((deadline - now) / day)`;
 ≤ 1 day +4, ≤ 3 days +2, ≤ 7 days +1. -/
def deadlineUrgency (deadline : Option Int) (now : Int) : Int :=
  match deadline with
  | none => 0
  | some dl =>
    let daysUntilDeadline := ceilDiv (dl - now) 86400000
    if daysUntilDeadline ≤ 1 then 4
    else if daysUntilDeadline ≤ 3 then 2
    else if daysUntilDeadline ≤ 7 then 1
    else 0

/-- Total additive score of one task in `generateSmartSuggestions`. -/
def scoreTask (t : STask) (energyLevel : Int) (tc : TimeContext) (now : Int) : Int :=
  priorityScore t.priority + focusEnergyScore t.focusType energyLevel +
    timeBonus t.focusType tc + deadlineUrgency t.deadline now

/-- The comparator `(a, b) => b.score - a.score` passed to
`Array.prototype.sort`: a stable descending sort by score, modelled as a
stable merge sort with `a` before `b` when `b.score ≤ a.score`. -/
def pairLe (a b : STask × Int) : Bool := b.2 ≤ a.2

/-- `generateSmartSuggestions` from `SmartTaskSuggestions`: score the
incomplete tasks, sort by score descending (stable) and return the top-5
tasks. -/
def generateSmartSuggestions (tasks : List STask) (energyLevel : Int)
    (tc : TimeContext) (now : Int) : List STask :=
  let incompleteTasks := tasks.filter (fun t => !t.completed)
  if incompleteTasks.isEmpty then []
  else
    let scoredTasks := incompleteTasks.map
      (fun t => (t, scoreTask t energyLevel tc now))
    ((scoredTasks.mergeSort pairLe).take 5).map Prod.fst

/-- The empty-list early return coincides with the generic pipeline. -/
theorem generateSmartSuggestions_eq (tasks : List STask) (energyLevel : Int)
    (tc : TimeContext) (now : Int) :
    generateSmartSuggestions tasks energyLevel tc now =
      ((((tasks.filter (fun t => !t.completed)).map
          (fun t => (t, scoreTask t energyLevel tc now))).mergeSort pairLe).take 5).map
        Prod.fst := by
  unfold generateSmartSuggestions
  by_cases hempty : (tasks.filter (fun t => !t.completed)).isEmpty
  · rw [List.isEmpty_iff] at hempty
    simp [hempty]
  · simp only [hempty, if_false, Bool.false_eq_true]

/-- Raising a task's priority to `high`, all else fixed. -/
def raisePriority (t : STask) : STask := { t with priority := some Priority.high }

/-- `pairLe` is transitive. -/
theorem pairLe_trans (a b c : STask × Int) (hab : pairLe a b) (hbc : pairLe b c) :
    pairLe a c := by
  simp only [pairLe, decide_eq_true_eq] at hab hbc ⊢
  omega

/-- `pairLe` is total. -/
theorem pairLe_total (a b : STask × Int) : pairLe a b || pairLe b a := by
  simp only [pairLe, Bool.or_eq_true, decide_eq_true_eq]
  omega

/-- Raising `low` to `high` adds exactly 2 to the total score. -/
theorem scoreTask_raise (t : STask) (e : Int) (tc : TimeContext) (now : Int)
    (h : t.priority = some Priority.low) :
    scoreTask (raisePriority t) e tc now = scoreTask t e tc now + 2 := by
  simp only [scoreTask, raisePriority, priorityScore, h]
  omega

/-- An element of a `take` splits the list with a short prefix. -/
theorem mem_take_decomp {α : Type} {x : α} :
    ∀ {l : List α} {k : ℕ}, x ∈ l.take k →
      ∃ b a, l = b ++ x :: a ∧ b.length < k := by
  intro l
  induction l with
  | nil => intro k h; simp at h
  | cons c tl ih =>
    intro k h
    cases k with
    | zero => simp at h
    | succ k' =>
      rw [List.take_succ_cons] at h
      rcases List.mem_cons.mp h with rfl | h'
      · exact ⟨[], tl, rfl, by simp⟩
      · obtain ⟨b, a, hba, hl⟩ := ih h'
        exact ⟨c :: b, a, by simp [hba], by simpa using Nat.succ_lt_succ hl⟩

/-- Every element of the scored list is a task paired with its score. -/
theorem mem_scored_eq (ts : List STask) (e : Int) (tc : TimeContext) (now : Int)
    {x : STask × Int}
    (hx : x ∈ (ts.filter (fun t => !t.completed)).map
      (fun t => (t, scoreTask t e tc now))) :
    x = (x.1, scoreTask x.1 e tc now) ∧ x.1 ∈ ts.filter (fun t => !t.completed) := by
  obtain ⟨y, hy, hyx⟩ := List.mem_map.mp hx
  subst hyx
  exact ⟨rfl, hy⟩

/-- C10: a task with no priority field gets the same +1 base score as an
explicit low-priority task, so two tasks identical except for
`low` versus absent priority receive equal total scores. -/
theorem c10_absent_priority_scores_like_low (t : STask) (e : Int)
    (tc : TimeContext) (now : Int) (h : t.priority = none) :
    priorityScore t.priority = 1 ∧
    priorityScore (some Priority.low) = 1 ∧
    scoreTask { t with priority := some Priority.low } e tc now =
      scoreTask t e tc now := by
  refine ⟨by rw [h]; rfl, rfl, ?_⟩
  simp [scoreTask, priorityScore, h]

/-- Witness for C10 at a concrete input. -/
theorem c10_absent_priority_scores_like_low_witness :
    (⟨"a", "T", false, 10, none, some 86400000, none, none,
        some FocusType.creative, none, false, false⟩ : STask).priority = none ∧
    (priorityScore (⟨"a", "T", false, 10, none, some 86400000, none, none,
        some FocusType.creative, none, false, false⟩ : STask).priority = 1 ∧
     priorityScore (some Priority.low) = 1 ∧
     scoreTask { (⟨"a", "T", false, 10, none, some 86400000, none, none,
        some FocusType.creative, none, false, false⟩ : STask) with
          priority := some Priority.low } 3 TimeContext.morning 0 =
       scoreTask (⟨"a", "T", false, 10, none, some 86400000, none, none,
        some FocusType.creative, none, false, false⟩ : STask) 3 TimeContext.morning 0) :=
  ⟨rfl, c10_absent_priority_scores_like_low
    ⟨"a", "T", false, 10, none, some 86400000, none, none,
      some FocusType.creative, none, false, false⟩ 3 TimeContext.morning 0 rfl⟩

/-- C7: raising one task's priority from `low` to `high`, every other
attribute and every other task fixed, strictly increases its score; it
stays in the returned top-5 list, and it never drops below any unchanged
task `u` that it previously ranked at or above there (for tasks with
pairwise-distinct ids, as the data model guarantees). -/
theorem c7_priority_monotonicity (pre post : List STask) (t u : STask)
    (e : Int) (tc : TimeContext) (now : Int)
    (hids : ((pre ++ t :: post).map STask.id).Nodup)
    (hlow : t.priority = some Priority.low)
    (hu : u ∈ pre ++ post)
    (hord : [t, u].Sublist (generateSmartSuggestions (pre ++ t :: post) e tc now)) :
    scoreTask t e tc now < scoreTask (raisePriority t) e tc now ∧
    raisePriority t ∈ generateSmartSuggestions (pre ++ raisePriority t :: post) e tc now ∧
    (u ∈ generateSmartSuggestions (pre ++ raisePriority t :: post) e tc now →
      [raisePriority t, u].Sublist
        (generateSmartSuggestions (pre ++ raisePriority t :: post) e tc now)) := by
  have hs2 : scoreTask (raisePriority t) e tc now = scoreTask t e tc now + 2 :=
    scoreTask_raise t e tc now hlow
  rw [generateSmartSuggestions_eq] at hord
  -- the sorted scored list of the original task list
  have hps : (((pre ++ t :: post).filter (fun x => !x.completed)).map
      (fun x => (x, scoreTask x e tc now))).mergeSort pairLe
        |>.Pairwise (fun a b => pairLe a b) :=
    List.sorted_mergeSort pairLe_trans pairLe_total _
  -- t occurs in the original top 5, so it is incomplete
  have htmem : t ∈ ((((pre ++ t :: post).filter (fun x => !x.completed)).map
      (fun x => (x, scoreTask x e tc now))).mergeSort pairLe
        |>.take 5).map Prod.fst :=
    hord.subset (by simp)
  obtain ⟨et, het5, hetfst⟩ := List.mem_map.mp htmem
  have hetsc := (List.mergeSort_perm _ pairLe).subset (List.mem_of_mem_take het5)
  obtain ⟨heteq, hetfil⟩ := mem_scored_eq (pre ++ t :: post) e tc now hetsc
  have hets : et = (t, scoreTask t e tc now) := by rw [heteq, hetfst]
  have htP : t.completed = false := by
    have := (List.mem_filter.mp (hetfst ▸ hetfil)).2
    simpa using this
  -- filter and scored-list decompositions for both task lists
  have hfil : (pre ++ t :: post).filter (fun x => !x.completed) =
      pre.filter (fun x => !x.completed) ++ t :: post.filter (fun x => !x.completed) := by
    rw [List.filter_append, List.filter_cons]
    simp [htP]
  have hfil' : (pre ++ raisePriority t :: post).filter (fun x => !x.completed) =
      pre.filter (fun x => !x.completed) ++
        raisePriority t :: post.filter (fun x => !x.completed) := by
    rw [List.filter_append, List.filter_cons]
    simp [raisePriority, htP]
  have hscored : ((pre ++ t :: post).filter (fun x => !x.completed)).map
      (fun x => (x, scoreTask x e tc now)) =
      (pre.filter (fun x => !x.completed)).map (fun x => (x, scoreTask x e tc now)) ++
        (t, scoreTask t e tc now) ::
        (post.filter (fun x => !x.completed)).map (fun x => (x, scoreTask x e tc now)) := by
    rw [hfil, List.map_append, List.map_cons]
  have hscored' : ((pre ++ raisePriority t :: post).filter (fun x => !x.completed)).map
      (fun x => (x, scoreTask x e tc now)) =
      (pre.filter (fun x => !x.completed)).map (fun x => (x, scoreTask x e tc now)) ++
        (raisePriority t, scoreTask t e tc now + 2) ::
        (post.filter (fun x => !x.completed)).map (fun x => (x, scoreTask x e tc now)) := by
    rw [hfil', List.map_append, List.map_cons, hs2]
  -- u's id differs from t's
  have hmapids : (pre ++ t :: post).map STask.id =
      pre.map STask.id ++ t.id :: post.map STask.id := by simp
  rw [hmapids] at hids
  have htid : t.id ∉ pre.map STask.id ++ post.map STask.id :=
    (List.nodup_cons.mp (List.nodup_middle.mp hids)).1
  have hune : u.id ≠ t.id := by
    intro hct
    apply htid
    rw [← hct]
    rcases List.mem_append.mp hu with h | h
    · exact List.mem_append_left _ (List.mem_map_of_mem _ h)
    · exact List.mem_append_right _ (List.mem_map_of_mem _ h)
  -- lift the order hypothesis to the scored entries: su ≤ s
  obtain ⟨l2, hl2sub, hl2map⟩ := List.sublist_map_iff.mp hord
  have hsu : scoreTask u e tc now ≤ scoreTask t e tc now := by
    rcases l2 with _ | ⟨a, _ | ⟨b, _ | ⟨c, l3⟩⟩⟩ <;> simp at hl2map
    obtain ⟨hat, hbu⟩ := hl2map
    have habsub : [a, b].Sublist (((pre ++ t :: post).filter
        (fun x => !x.completed)).map (fun x => (x, scoreTask x e tc now))
          |>.mergeSort pairLe) :=
      hl2sub.trans (List.take_sublist 5 _)
    have hpair := hps.sublist habsub
    have hle : pairLe a b := (List.pairwise_cons.mp hpair).1 b (by simp)
    have hasc := (List.mergeSort_perm _ pairLe).subset
      (habsub.subset (by simp : a ∈ [a, b]))
    have hbsc := (List.mergeSort_perm _ pairLe).subset
      (habsub.subset (by simp : b ∈ [a, b]))
    have haeq := (mem_scored_eq (pre ++ t :: post) e tc now hasc).1
    have hbeq := (mem_scored_eq (pre ++ t :: post) e tc now hbsc).1
    rw [haeq, hbeq] at hle
    simp only [pairLe, decide_eq_true_eq] at hle
    rw [hat, hbu]
    exact hle
  -- the raised entry in the new sorted list
  have hps' : (((pre ++ raisePriority t :: post).filter (fun x => !x.completed)).map
      (fun x => (x, scoreTask x e tc now))).mergeSort pairLe
        |>.Pairwise (fun a b => pairLe a b) :=
    List.sorted_mergeSort pairLe_trans pairLe_total _
  have he'sc : (raisePriority t, scoreTask t e tc now + 2) ∈
      ((pre ++ raisePriority t :: post).filter (fun x => !x.completed)).map
        (fun x => (x, scoreTask x e tc now)) := by
    rw [hscored']
    exact List.mem_append_right _ (List.mem_cons_self _ _)
  have he'sorted : (raisePriority t, scoreTask t e tc now + 2) ∈
      (((pre ++ raisePriority t :: post).filter (fun x => !x.completed)).map
        (fun x => (x, scoreTask x e tc now))).mergeSort pairLe :=
    ((List.mergeSort_perm _ pairLe).mem_iff).mpr he'sc
  obtain ⟨before, after, hdec⟩ := List.append_of_mem he'sorted
  rw [hdec] at hps'
  obtain ⟨hpb, hpta, hbmid⟩ := List.pairwise_append.mp hps'
  have hbefore_ge : ∀ x ∈ before, scoreTask t e tc now + 2 ≤ x.2 := by
    intro x hx
    have := hbmid x hx _ (List.mem_cons_self _ _)
    simpa [pairLe] using this
  -- everything before the raised entry is a permutation of the unchanged entries
  have hperm2 : (before ++ after).Perm
      ((pre.filter (fun x => !x.completed)).map (fun x => (x, scoreTask x e tc now)) ++
        (post.filter (fun x => !x.completed)).map (fun x => (x, scoreTask x e tc now))) := by
    have h1 : ((raisePriority t, scoreTask t e tc now + 2) :: (before ++ after)).Perm
        (before ++ (raisePriority t, scoreTask t e tc now + 2) :: after) :=
      List.perm_middle.symm
    have h2 : (before ++ (raisePriority t, scoreTask t e tc now + 2) :: after).Perm
        (((pre ++ raisePriority t :: post).filter (fun x => !x.completed)).map
          (fun x => (x, scoreTask x e tc now))) := by
      rw [← hdec]
      exact List.mergeSort_perm _ pairLe
    have h3 : (((pre ++ raisePriority t :: post).filter (fun x => !x.completed)).map
        (fun x => (x, scoreTask x e tc now))).Perm
        ((raisePriority t, scoreTask t e tc now + 2) ::
          ((pre.filter (fun x => !x.completed)).map (fun x => (x, scoreTask x e tc now)) ++
            (post.filter (fun x => !x.completed)).map
              (fun x => (x, scoreTask x e tc now)))) := by
      rw [hscored']
      exact List.perm_middle
    exact ((h1.trans h2).trans h3).cons_inv
  -- count of entries scoring strictly above t bounds the prefix length
  have hQb : List.countP (fun y => decide (scoreTask t e tc now < y.2)) before =
      before.length :=
    List.countP_eq_length.mpr (fun x hx => by
      have := hbefore_ge x hx
      simp only [decide_eq_true_eq]
      omega)
  have het5' : (t, scoreTask t e tc now) ∈
      List.take 5 ((((pre ++ t :: post).filter (fun x => !x.completed)).map
        (fun x => (x, scoreTask x e tc now))).mergeSort pairLe) := hets ▸ het5
  obtain ⟨b, a2, hba, hblen⟩ := mem_take_decomp het5'
  rw [hba] at hps
  obtain ⟨hpb2, hpta2, hbmid2⟩ := List.pairwise_append.mp hps
  have ha2zero : List.countP (fun y => decide (scoreTask t e tc now < y.2)) a2 = 0 :=
    List.countP_eq_zero.mpr (fun y hy => by
      have := (List.pairwise_cons.mp hpta2).1 y hy
      simp only [pairLe, decide_eq_true_eq] at this
      simp only [decide_eq_true_eq]
      omega)
  have hcount1 : List.countP (fun y => decide (scoreTask t e tc now < y.2))
      (((pre ++ t :: post).filter (fun x => !x.completed)).map
        (fun x => (x, scoreTask x e tc now))) =
      List.countP (fun y => decide (scoreTask t e tc now < y.2)) b := by
    have hp := ((List.mergeSort_perm (((pre ++ t :: post).filter
      (fun x => !x.completed)).map (fun x => (x, scoreTask x e tc now)))
        pairLe).countP_eq (fun y => decide (scoreTask t e tc now < y.2))).symm
    rw [hp, hba, List.countP_append, List.countP_cons, ha2zero]
    simp
  have hcount2 : List.countP (fun y => decide (scoreTask t e tc now < y.2))
      (((pre ++ t :: post).filter (fun x => !x.completed)).map
        (fun x => (x, scoreTask x e tc now))) =
      List.countP (fun y => decide (scoreTask t e tc now < y.2))
        ((pre.filter (fun x => !x.completed)).map (fun x => (x, scoreTask x e tc now)) ++
          (post.filter (fun x => !x.completed)).map
            (fun x => (x, scoreTask x e tc now))) := by
    rw [hscored, List.countP_append, List.countP_cons, List.countP_append]
    simp
  have hble4 : before.length ≤ 4 := by
    have hc1 : List.countP (fun y => decide (scoreTask t e tc now < y.2))
        (before ++ after) =
        List.countP (fun y => decide (scoreTask t e tc now < y.2))
          ((pre.filter (fun x => !x.completed)).map (fun x => (x, scoreTask x e tc now)) ++
            (post.filter (fun x => !x.completed)).map
              (fun x => (x, scoreTask x e tc now))) :=
      hperm2.countP_eq _
    have hc2 : List.countP (fun y => decide (scoreTask t e tc now < y.2)) b ≤
        b.length := List.countP_le_length _
    have hc3 := List.countP_append (fun y => decide (scoreTask t e tc now < y.2))
      before after
    omega
  -- the shape of the new top 5
  have htake5 : List.take 5 ((((pre ++ raisePriority t :: post).filter
      (fun x => !x.completed)).map (fun x => (x, scoreTask x e tc now))).mergeSort
        pairLe) =
      before ++ (raisePriority t, scoreTask t e tc now + 2) ::
        after.take (4 - before.length) := by
    rw [hdec, List.take_append_eq_append_take,
      List.take_of_length_le (show before.length ≤ 5 by omega)]
    congr 1
    rw [show 5 - before.length = (4 - before.length) + 1 by omega, List.take_succ_cons]
  refine ⟨by omega, ?_, ?_⟩
  · rw [generateSmartSuggestions_eq, htake5]
    exact List.mem_map_of_mem _ (List.mem_append_right _ (List.mem_cons_self _ _))
  · intro hu'
    rw [generateSmartSuggestions_eq] at hu' ⊢
    obtain ⟨eu', heu'5, heu'fst⟩ := List.mem_map.mp hu'
    have heu'sc := (List.mergeSort_perm _ pairLe).subset (List.mem_of_mem_take heu'5)
    have heu'eq := (mem_scored_eq (pre ++ raisePriority t :: post) e tc now heu'sc).1
    have heu'val : eu' = (u, scoreTask u e tc now) := by rw [heu'eq, heu'fst]
    rw [htake5] at heu'5
    rcases List.mem_append.mp heu'5 with hb | hc
    · exfalso
      have := hbefore_ge eu' hb
      rw [heu'val] at this
      simp only at this
      omega
    · rcases List.mem_cons.mp hc with he | hafter
      · exfalso
        have h4 : u = raisePriority t := congrArg Prod.fst (heu'val.symm.trans he)
        have h5 : u.id = (raisePriority t).id := congrArg STask.id h4
        exact hune (h5.trans rfl)
      · have hsub1 : [(raisePriority t, scoreTask t e tc now + 2), eu'].Sublist
            ((raisePriority t, scoreTask t e tc now + 2) ::
              after.take (4 - before.length)) :=
          (List.singleton_sublist.mpr hafter).cons₂ _
        have hsub2 : ((raisePriority t, scoreTask t e tc now + 2) ::
            after.take (4 - before.length)).Sublist
            (List.take 5 ((((pre ++ raisePriority t :: post).filter
              (fun x => !x.completed)).map
                (fun x => (x, scoreTask x e tc now))).mergeSort pairLe)) := by
          rw [htake5]
          exact List.sublist_append_right _ _
        have hsub := (hsub1.trans hsub2).map Prod.fst
        simpa [heu'fst] using hsub

/-- Witness for C7 at a concrete input: a low-priority task "a" ranked
first and an unchanged task "b" with equal score ranked second. -/
theorem c7_priority_monotonicity_witness :
    let tLow : STask :=
      ⟨"a", "A", false, 10, some Priority.low, none, none, none, none, none,
        false, false⟩
    let uTask : STask :=
      ⟨"b", "B", false, 10, none, none, none, none, none, none, false, false⟩
    ((([] ++ tLow :: [uTask]).map STask.id).Nodup ∧
      tLow.priority = some Priority.low ∧
      uTask ∈ ([] : List STask) ++ [uTask] ∧
      [tLow, uTask].Sublist
        (generateSmartSuggestions ([] ++ tLow :: [uTask]) 3 TimeContext.morning 0)) ∧
    (scoreTask tLow 3 TimeContext.morning 0 <
        scoreTask (raisePriority tLow) 3 TimeContext.morning 0 ∧
      raisePriority tLow ∈
        generateSmartSuggestions ([] ++ raisePriority tLow :: [uTask]) 3
          TimeContext.morning 0 ∧
      (uTask ∈ generateSmartSuggestions ([] ++ raisePriority tLow :: [uTask]) 3
          TimeContext.morning 0 →
        [raisePriority tLow, uTask].Sublist
          (generateSmartSuggestions ([] ++ raisePriority tLow :: [uTask]) 3
            TimeContext.morning 0))) := by
  intro tLow uTask
  have hord : [tLow, uTask].Sublist
      (generateSmartSuggestions ([] ++ tLow :: [uTask]) 3 TimeContext.morning 0) := by
    rw [generateSmartSuggestions_eq, List.mergeSort_of_sorted (by decide)]
    exact (show [tLow, uTask].Sublist [tLow, uTask] from List.Sublist.refl _)
  exact ⟨⟨by decide, rfl, by decide, hord⟩,
    c7_priority_monotonicity [] [uTask] tLow uTask 3 TimeContext.morning 0
      (by decide) rfl (by decide) hord⟩

end PocketPlanner
